import Mathlib

/-!
Shallow embedding of the gomusic core (album resolution, lyric
synchronisation, playback session) for checking the specification's claims.
Strings are modelled as Lean `String` / `List Char`; Go byte lengths via
`goLen`; Go `int`/`time.Duration` values as `Int`.  Float rounding and
`int64` overflow in timestamp arithmetic are modelled by exact integer
arithmetic: every property proved below is independent of the numeric
values produced by that arithmetic.
-/

namespace GoMusic

/-- Character class of Go `unicode.IsSpace` restricted to ASCII, used by
`strings.TrimSpace`. -/
def goSpace (c : Char) : Bool :=
  c = '\t' || c = '\n' || c = '\x0b' || c = '\x0c' || c = '\r' || c = ' '

/-- Character class of the Go regexp `\s` (no vertical tab). -/
def regexSpace (c : Char) : Bool :=
  c = '\t' || c = '\n' || c = '\x0c' || c = '\r' || c = ' '

/-- Both-ends `dropWhile`, the list body of Go `strings.TrimSpace`
(ASCII fragment). -/
def trimChars (l : List Char) : List Char :=
  ((l.dropWhile goSpace).reverse.dropWhile goSpace).reverse

/-- Go `strings.TrimSpace` (ASCII fragment). -/
def trimSpace (s : String) : String :=
  ⟨trimChars s.data⟩

/-- Does `pat` occur at the head of `l` (exact character match)? -/
def headMatches : List Char → List Char → Bool
  | [], _ => true
  | _ :: _, [] => false
  | a :: as, b :: bs => a == b && headMatches as bs

/-- Does the lower-casing of the head of `l` equal `pat` (`pat` given
lower-cased)?  Character test of a Go `(?i)` literal regexp. -/
def headMatchesCI : List Char → List Char → Bool
  | [], _ => true
  | _ :: _, [] => false
  | a :: as, b :: bs => b.toLower == a && headMatchesCI as bs

/-- Does `needle` occur as a contiguous run inside `hay`?  Semantics of Go
`strings.Contains hay needle`. -/
def subOccurs (needle : List Char) : List Char → Bool
  | [] => needle.isEmpty
  | c :: t => headMatches needle (c :: t) || subOccurs needle t

/-- Go `strings.Contains s substr`. -/
def goContains (s substr : String) : Bool :=
  subOccurs substr.data s.data

/-- Go `len` on a string: number of UTF-8 bytes. -/
def goLen (s : String) : Nat :=
  (s.data.map Char.utf8Size).sum

/-- Go `strings.ToLower` (ASCII case folding). -/
def toLowerS (s : String) : String :=
  ⟨s.data.map Char.toLower⟩

/-- Go `strings.TrimSuffix`. -/
def chopRight (s suf : String) : String :=
  if headMatches suf.data.reverse s.data.reverse then
    ⟨s.data.take (s.data.length - suf.data.length)⟩
  else s

/-- Go `strings.TrimPrefix`. -/
def chopLeft (s pre : String) : String :=
  if headMatches pre.data s.data then ⟨s.data.drop pre.data.length⟩ else s

/-- Worker of `replaceAllCI`: while `skip` is positive the characters of an
already-recognised occurrence are being consumed; at `skip = 0` the scan
looks for the next case-insensitive occurrence of `p :: ps`. -/
def replaceAllCIAux (p : Char) (ps : List Char) : Nat → List Char → List Char
  | _, [] => []
  | n + 1, _ :: cs => replaceAllCIAux p ps n cs
  | 0, c :: cs =>
    if c.toLower == p && headMatchesCI ps cs then replaceAllCIAux p ps ps.length cs
    else c :: replaceAllCIAux p ps 0 cs

/-- Replace every (leftmost, non-overlapping) case-insensitive occurrence of
the non-empty literal pattern `p :: ps` (given lower-cased) with nothing: Go
`regexp.MustCompile("(?i)" + regexp.QuoteMeta(pat)).ReplaceAllString(s, "")`.
A successful match consumes exactly `ps.length` characters after the head. -/
def replaceAllCI (p : Char) (ps : List Char) (l : List Char) : List Char :=
  replaceAllCIAux p ps 0 l

/-- Worker of `replaceAllEx`, same skip-counter scheme with exact
matching. -/
def replaceAllExAux (p : Char) (ps : List Char) : Nat → List Char → List Char
  | _, [] => []
  | n + 1, _ :: cs => replaceAllExAux p ps n cs
  | 0, c :: cs =>
    if c == p && headMatches ps cs then replaceAllExAux p ps ps.length cs
    else c :: replaceAllExAux p ps 0 cs

/-- Replace every occurrence of the non-empty literal `p :: ps` with nothing:
Go `strings.ReplaceAll(s, pat, "")`. -/
def replaceAllEx (p : Char) (ps : List Char) (l : List Char) : List Char :=
  replaceAllExAux p ps 0 l

/-- Worker of `removeBrackets`: `mode = some cl` means the scan is inside a
bracketed segment and discards characters up to and including the closer
`cl` (entered only when `cl` is known to occur). -/
def removeBracketsAux : Option Char → List Char → List Char
  | _, [] => []
  | some cl, c :: cs =>
    if c == cl then removeBracketsAux none cs else removeBracketsAux (some cl) cs
  | none, c :: cs =>
    if c = '[' then
      if cs.contains ']' then removeBracketsAux (some ']') cs
      else c :: removeBracketsAux none cs
    else if c = '(' then
      if cs.contains ')' then removeBracketsAux (some ')') cs
      else c :: removeBracketsAux none cs
    else c :: removeBracketsAux none cs

/-- Step 1 of `cleanString` (src/lyrics.go:122-123): global replacement of
the regexp `\[[^\]]*\]|\([^)]*\)` by the empty string.  At a `[` the match
runs to the first following `]` (greedy `[^\]]*` must stop there); with no
closing `]` the position fails and scanning moves on; likewise for `(`/`)`. -/
def removeBrackets (l : List Char) : List Char :=
  removeBracketsAux none l

/-- The suffix vocabulary of `cleanString` (src/lyrics.go:126-130), in source
order. -/
def suffixVocab : List String :=
  ["official music video", "official video", "official audio",
   "music video", "lyric video", "lyrics", "official",
   "video", "audio", "full song", "hd", "4k", "720p", "1080p"]

/-- Step 2 of `cleanString` (src/lyrics.go:131-134): one case-insensitive
global replacement pass per vocabulary word, in order. -/
def removeSuffixes (l : List Char) : List Char :=
  suffixVocab.foldl
    (fun acc s =>
      match s.data with
      | [] => acc
      | p :: ps => replaceAllCI p ps acc)
    l

/-- Does the regexp `(?i)\s+by\s+.*$` match starting exactly at the head of
`l` (the head must be a `\s` character)?  `\s+` must end at the first
non-space, where `by` has to stand; after `by` one more `\s` is required and
`.*$` then has to cover the rest, which (since `.` excludes and `\s`
includes the newline) succeeds exactly when the text after the space run
following `by` holds no newline. -/
def byMatchHere (l : List Char) : Bool :=
  match l with
  | [] => false
  | c :: _ =>
    regexSpace c &&
      match l.dropWhile regexSpace with
      | b :: y :: r2 =>
        b.toLower == 'b' && y.toLower == 'y' &&
          (match r2 with
           | s :: _ => regexSpace s && !((r2.dropWhile regexSpace).contains '\n')
           | [] => false)
      | _ => false

/-- Step 3 of `cleanString` (src/lyrics.go:137-138): replace the regexp
`(?i)\s+by\s+.*$` by the empty string, i.e. truncate at the leftmost
position where it matches. -/
def removeBy : List Char → List Char
  | [] => []
  | c :: cs => if byMatchHere (c :: cs) then [] else c :: removeBy cs

/-- The character-level pipeline of `cleanString` (src/lyrics.go:120-145):
bracket removal, suffix-vocabulary removal, `by`-tail removal, `ft.` and
`feat.` removal, final trim. -/
def cleanChars (l : List Char) : List Char :=
  trimChars (replaceAllEx 'f' ['e', 'a', 't', '.'] (replaceAllEx 'f' ['t', '.']
    (removeBy (removeSuffixes (removeBrackets l)))))

/-- src/lyrics.go:120-145: the text normalizer `cleanString`. -/
def cleanString (s : String) : String :=
  ⟨cleanChars s.data⟩

/-! ## Album resolution (src/ytmusic_search.go) -/

/-- A candidate returned by the catalog's track search (`ytmusic.TrackItem`
restricted to the fields the resolver reads): identifier, title, the raw
artist names, the album name and the thumbnail URLs. -/
structure TrackItem where
  videoID : String
  title : String
  artistNames : List String
  albumName : String
  thumbnails : List String
deriving DecidableEq

/-- src/unnamed/part_005: the `songItem` record (fields the resolver
writes). -/
structure songItem where
  id : String
  title : String
  author : String
  thumb : String
  isAlbum : Bool
  trackCount : Nat
deriving DecidableEq

/-- src/ytmusic_search.go:165-173 `cleanArtistName`: strip common channel
suffixes, then trim. -/
def cleanArtistName (name : String) : String :=
  trimSpace (chopRight (chopRight (chopRight (chopRight (chopRight name
    " - Topic") "Topic") "VEVO") "Vevo") " Official")

/-- src/ytmusic_search.go:154-162 `getArtistNames`. -/
def getArtistNames (artists : List String) : List String :=
  artists.map cleanArtistName

/-- src/ytmusic_search.go:176-182 `getBestThumbnail`: the last thumbnail URL
or the empty string. -/
def getBestThumbnail (thumbnails : List String) : String :=
  match thumbnails.getLast? with
  | none => ""
  | some u => u

/-- src/ytmusic_search.go:87-112 `convertYTMusicTrack`: build a `songItem`
from a track, wiping the identifier and marking the title when the
identifier is shorter than 10 bytes. -/
def convertYTMusicTrack (t : TrackItem) : songItem :=
  let thumb := getBestThumbnail t.thumbnails
  let artistStr := String.intercalate ", " (getArtistNames t.artistNames)
  if goLen t.videoID < 10 then
    { id := "", title := "⚠️ " ++ t.title ++ " (Not available for playback)",
      author := artistStr, thumb := thumb, isAlbum := false, trackCount := 0 }
  else
    { id := t.videoID, title := t.title, author := artistStr, thumb := thumb,
      isAlbum := false, trackCount := 0 }

/-- The track's lower-cased album key (`strings.ToLower(track.Album.Name)`,
src/ytmusic_search.go:238). -/
def trackAlbumKey (t : TrackItem) : String :=
  toLowerS t.albumName

/-- The track's lower-cased artist key
(`strings.ToLower(strings.Join(getArtistNames(track.Artists), " "))`,
src/ytmusic_search.go:239). -/
def trackArtistKey (t : TrackItem) : String :=
  toLowerS (String.intercalate " " (getArtistNames t.artistNames))

/-- src/ytmusic_search.go:242-244: album match of the strict pass —
substring containment in either direction, or equality. -/
def albumMatch (trackAlbumLower albumNameLower : String) : Bool :=
  goContains trackAlbumLower albumNameLower ||
  goContains albumNameLower trackAlbumLower ||
  trackAlbumLower == albumNameLower

/-- src/ytmusic_search.go:247-248: artist match — substring containment in
either direction. -/
def artistMatch (trackArtistLower artistNameLower : String) : Bool :=
  goContains trackArtistLower artistNameLower ||
  goContains artistNameLower trackArtistLower

/-- src/ytmusic_search.go:290-291: album match of the loose fallback pass
(no separate equality disjunct). -/
def albumMatchLoose (trackAlbumLower albumNameLower : String) : Bool :=
  goContains trackAlbumLower albumNameLower ||
  goContains albumNameLower trackAlbumLower

/-- src/ytmusic_search.go:252-258: is a track with this identifier already
in the accumulated result? -/
def containsId (tracks : List songItem) (vid : String) : Bool :=
  tracks.any (fun e => e.id == vid)

/-- Acceptance test of the strict pass (src/ytmusic_search.go:250-263):
album match and artist match, not a duplicate, identifier at least 10
bytes. -/
def acceptStrict (aKey arKey : String) (acc : List songItem) (t : TrackItem) : Bool :=
  albumMatch (trackAlbumKey t) aKey && artistMatch (trackArtistKey t) arKey &&
  !containsId acc t.videoID && decide (10 ≤ goLen t.videoID)

/-- One candidate of the strict pass: append the converted track when
accepted. -/
def strictStep (aKey arKey : String) (acc : List songItem) (t : TrackItem) : List songItem :=
  if acceptStrict aKey arKey acc t then acc ++ [convertYTMusicTrack t] else acc

/-- The strict pass over one variant's candidate list
(src/ytmusic_search.go:236-264). -/
def strictPass (aKey arKey : String) (res : List TrackItem) (acc : List songItem) : List songItem :=
  res.foldl (strictStep aKey arKey) acc

/-- Acceptance test of the loose fallback pass
(src/ytmusic_search.go:295-307): album match, or artist match while fewer
than 10 tracks are accumulated; not a duplicate; identifier at least 10
bytes. -/
def acceptLoose (aKey arKey : String) (acc : List songItem) (t : TrackItem) : Bool :=
  (albumMatchLoose (trackAlbumKey t) aKey ||
    (artistMatch (trackArtistKey t) arKey && decide (acc.length < 10))) &&
  !containsId acc t.videoID && decide (10 ≤ goLen t.videoID)

/-- One candidate of the loose pass. -/
def looseStep (aKey arKey : String) (acc : List songItem) (t : TrackItem) : List songItem :=
  if acceptLoose aKey arKey acc t then acc ++ [convertYTMusicTrack t] else acc

/-- The loose pass over a watch-playlist expansion
(src/ytmusic_search.go:285-309). -/
def loosePass (aKey arKey : String) (watch : List TrackItem) (acc : List songItem) : List songItem :=
  watch.foldl (looseStep aKey arKey) acc

/-- The catalog search service as consumed by the resolver:
`ytmusic.TrackSearch(q).Next()` and `ytmusic.GetWatchPlaylist(videoID)`,
each either failing or returning a candidate list. -/
structure Catalog where
  trackSearch : String → Except Unit (List TrackItem)
  getWatchPlaylist : String → Except Unit (List TrackItem)

/-- src/ytmusic_search.go:214-215: strip the album emoji marker and trim. -/
def cleanAlbumTitle (albumTitle : String) : String :=
  trimSpace (chopLeft albumTitle "📀 ")

/-- src/ytmusic_search.go:222-227: the four query variants, in order. -/
def searchQueries (cleanTitle artistName : String) : List String :=
  [cleanTitle ++ " " ++ artistName,
   artistName ++ " album " ++ cleanTitle,
   "\"" ++ cleanTitle ++ "\" \"" ++ artistName ++ "\"",
   cleanTitle]

/-- Outcome of the resolution: an ordered track list, or the failure naming
the attempted album and artist (src/ytmusic_search.go:318-322). -/
inductive ResolveResult
  | found (tracks : List songItem)
  | notFound (album artist : String)
deriving DecidableEq

/-- Strategy 1 (src/ytmusic_search.go:229-270): one search per variant,
skipping failed variants, breaking as soon as the accumulated list is
non-empty.  The second component logs the issued search queries. -/
def runStrict (cat : Catalog) (aKey arKey : String) :
    List String → List songItem → List String → List songItem × List String
  | [], tracks, slog => (tracks, slog)
  | q :: qs, tracks, slog =>
    match cat.trackSearch q with
    | Except.error _ => runStrict cat aKey arKey qs tracks (slog ++ [q])
    | Except.ok res =>
      let tracks2 := strictPass aKey arKey res tracks
      if 0 < tracks2.length then (tracks2, slog ++ [q])
      else runStrict cat aKey arKey qs tracks2 (slog ++ [q])

/-- Strategy 2 (src/ytmusic_search.go:274-316): re-search each variant,
seed a watch-playlist expansion from the first candidate of the first
non-empty response, filter it loosely, and break once tracks were
accepted.  Components 2 and 3 log the search queries and the watch-playlist
seeds. -/
def runFallback (cat : Catalog) (aKey arKey : String) :
    List String → List songItem → List String → List String →
    List songItem × List String × List String
  | [], tracks, slog, wlog => (tracks, slog, wlog)
  | q :: qs, tracks, slog, wlog =>
    match cat.trackSearch q with
    | Except.error _ => runFallback cat aKey arKey qs tracks (slog ++ [q]) wlog
    | Except.ok [] => runFallback cat aKey arKey qs tracks (slog ++ [q]) wlog
    | Except.ok (t0 :: _rest) =>
      match cat.getWatchPlaylist t0.videoID with
      | Except.error _ =>
        runFallback cat aKey arKey qs tracks (slog ++ [q]) (wlog ++ [t0.videoID])
      | Except.ok watch =>
        if 0 < watch.length then
          let tracks2 := loosePass aKey arKey watch tracks
          if 0 < tracks2.length then (tracks2, slog ++ [q], wlog ++ [t0.videoID])
          else runFallback cat aKey arKey qs tracks2 (slog ++ [q]) (wlog ++ [t0.videoID])
        else runFallback cat aKey arKey qs tracks (slog ++ [q]) (wlog ++ [t0.videoID])

/-- The strict phase of `searchAlbumWithTracks`, with its search log. -/
def strictPhase (cat : Catalog) (albumTitle artistName : String) :
    List songItem × List String :=
  runStrict cat (toLowerS (cleanAlbumTitle albumTitle)) (toLowerS artistName)
    (searchQueries (cleanAlbumTitle albumTitle) artistName) [] []

/-- The complete run of a resolution: its outcome, the search queries it
issued and the watch-playlist seeds it requested, in order. -/
structure ResolveRun where
  result : ResolveResult
  searchCalls : List String
  watchCalls : List String
deriving DecidableEq

/-- The fallback phase of `searchAlbumWithTracks`
(src/ytmusic_search.go:274-316): it runs only when the strict phase
accepted no track, and otherwise passes the strict result through with no
further call. -/
def fallbackPhase (cat : Catalog) (albumTitle artistName : String) :
    List songItem × List String × List String :=
  if (strictPhase cat albumTitle artistName).1.length = 0 then
    runFallback cat (toLowerS (cleanAlbumTitle albumTitle)) (toLowerS artistName)
      (searchQueries (cleanAlbumTitle albumTitle) artistName)
      (strictPhase cat albumTitle artistName).1 [] []
  else ((strictPhase cat albumTitle artistName).1, [], [])

/-- src/ytmusic_search.go:211-324 `searchAlbumWithTracks`: strict pass over
the four variants, loose fallback only when the strict pass accepted
nothing, failure when both passes accepted nothing. -/
def searchAlbumWithTracks (cat : Catalog) (albumTitle artistName : String) : ResolveRun :=
  if (fallbackPhase cat albumTitle artistName).1.length = 0 then
    { result := ResolveResult.notFound (cleanAlbumTitle albumTitle) artistName,
      searchCalls := (strictPhase cat albumTitle artistName).2 ++
        (fallbackPhase cat albumTitle artistName).2.1,
      watchCalls := (fallbackPhase cat albumTitle artistName).2.2 }
  else
    { result := ResolveResult.found (fallbackPhase cat albumTitle artistName).1,
      searchCalls := (strictPhase cat albumTitle artistName).2 ++
        (fallbackPhase cat albumTitle artistName).2.1,
      watchCalls := (fallbackPhase cat albumTitle artistName).2.2 }

/-! ### Concrete stubs for the specified scenarios -/

/-- The "Greatest Hits (Remastered)" candidate of the scenario stub. -/
def ghTrack1 : TrackItem :=
  { videoID := "abcdefghijk", title := "Track One",
    artistNames := ["Example Band"], albumName := "Greatest Hits (Remastered)",
    thumbnails := [] }

/-- The "Unrelated Album" candidate of the scenario stub. -/
def ghTrack2 : TrackItem :=
  { videoID := "bbcdefghijk", title := "Track Two",
    artistNames := ["Example Band"], albumName := "Unrelated Album",
    thumbnails := [] }

/-- Scenario stub: the first variant returns the two candidates, every other
query returns no results. -/
def ghCat : Catalog :=
  { trackSearch := fun q =>
      if q = "Greatest Hits Example Band" then Except.ok [ghTrack1, ghTrack2]
      else Except.ok [],
    getWatchPlaylist := fun _ => Except.ok [] }

/-- Stub returning zero candidates for every query. -/
def emptyCat : Catalog :=
  { trackSearch := fun _ => Except.ok [],
    getWatchPlaylist := fun _ => Except.ok [] }

/-- src/ytmusic_search.go:27-41 (`filterSongs` branch of `searchYTMusic`):
only tracks with identifiers of at least 10 bytes are added. -/
def searchFilterSongs (res : List TrackItem) : List songItem :=
  res.foldl
    (fun acc t =>
      if decide (10 ≤ goLen t.videoID) then acc ++ [convertYTMusicTrack t]
      else acc)
    []

/-! ## Lyric parsing (src/lyrics.go:154-180) -/

/-- src/unnamed/part_005: one time-tagged lyric line.  `timestamp` is the
`time.Duration` in nanoseconds, modelled as `Int`. -/
structure LyricLine where
  timestamp : Int
  text : String
deriving DecidableEq

/-- Try to match the regexp `\[(\d+):(\d+\.\d+)\](.*)` exactly at the head
of `l`: a `[`, digits, `:`, digits, `.`, digits, `]`, then the rest of the
line (captured by the greedy `(.*)`, which on a newline-free line is
everything up to the end).  Returns the three digit groups and the rest. -/
def matchLRC (l : List Char) : Option (List Char × List Char × List Char × List Char) :=
  match l with
  | '[' :: r0 =>
    let d1 := r0.takeWhile Char.isDigit
    let r1 := r0.dropWhile Char.isDigit
    if d1.isEmpty then none else
    match r1 with
    | ':' :: r2 =>
      let d2 := r2.takeWhile Char.isDigit
      let r3 := r2.dropWhile Char.isDigit
      if d2.isEmpty then none else
      match r3 with
      | '.' :: r4 =>
        let d3 := r4.takeWhile Char.isDigit
        let r5 := r4.dropWhile Char.isDigit
        if d3.isEmpty then none else
        match r5 with
        | ']' :: r6 => some (d1, d2, d3, r6)
        | _ => none
      | _ => none
    | _ => none
  | _ => none

/-- Semantics of `FindStringSubmatch`: the leftmost position where the
pattern matches. -/
def findLRC : List Char → Option (List Char × List Char × List Char × List Char)
  | [] => none
  | c :: rest =>
    match matchLRC (c :: rest) with
    | some r => some r
    | none => findLRC rest

/-- Decimal value of a digit string. -/
def digitsToNat (l : List Char) : Nat :=
  l.foldl (fun n c => n * 10 + (c.toNat - 48)) 0

/-- src/lyrics.go:163-167: `min*time.Minute +
time.Duration(sec*float64(time.Second))` in nanoseconds, computed over
exact integers (see the header note; the sorted-output and
ignored-line properties below do not depend on this value). -/
def lrcTimestamp (d1 d2 d3 : List Char) : Int :=
  let m := digitsToNat d1
  let s := digitsToNat d2
  let f := digitsToNat d3
  let k := d3.length
  (m * 60000000000 + s * 1000000000 +
    (if k ≤ 9 then f * 10 ^ (9 - k) else f / 10 ^ (k - 9)) : Int)

/-- One line of the scanner loop (src/lyrics.go:160-173): `none` when the
regexp does not match anywhere in the line (the line is ignored). -/
def parseLRCLine (line : String) : Option LyricLine :=
  match findLRC line.data with
  | none => none
  | some (d1, d2, d3, rest) =>
    some { timestamp := lrcTimestamp d1 d2 d3, text := trimSpace ⟨rest⟩ }

/-- Insert a line into a list ordered by timestamp (model of the comparator
`lines[i].Timestamp < lines[j].Timestamp` of src/lyrics.go:175-177). -/
def insertLine (x : LyricLine) : List LyricLine → List LyricLine
  | [] => [x]
  | y :: ys =>
    if x.timestamp < y.timestamp then x :: y :: ys else y :: insertLine x ys

/-- The `sort.Slice` call by ascending timestamp (src/lyrics.go:175-177),
modelled by insertion sort. -/
def sortLines (ls : List LyricLine) : List LyricLine :=
  ls.foldr insertLine []

/-- The body of `parseLRC` on an already-split list of input lines. -/
def parseLRCLines (lines : List String) : List LyricLine :=
  sortLines (lines.filterMap parseLRCLine)

/-- src/lyrics.go:154-180 `parseLRC`. -/
def parseLRC (lrcText : String) : List LyricLine :=
  parseLRCLines (lrcText.splitOn "\n")

/-! ## Playback session (src/player.go, src/main.go) -/

/-- The decodable stream behind a `beep.Ctrl`: whether it is a
`beep.StreamSeeker`, and its `Position()` and `Len()` in samples. -/
structure StreamerHandle where
  seekable : Bool
  pos : Int
  len : Int
deriving DecidableEq

/-- A `beep.Ctrl`. -/
structure Ctrl where
  paused : Bool
  streamer : StreamerHandle
deriving DecidableEq

/-- src/unnamed/part_005 `playbackState`.  The loosely-typed `player` and
`cmd` fields (`any` holding `*beep.Ctrl` / `*exec.Cmd` or `nil`) are
modelled as options. -/
structure playbackState where
  playingSong : String
  isPaused : Bool
  player : Option Ctrl
  cmd : Option Unit
  lyrics : List LyricLine
  currentLyricIndex : Int
  albumCover : String
  coverPath : String
  kittyImage : String
  resizedCoverPath : String
deriving DecidableEq

/-- src/player.go:183: sample position to elapsed time,
`time.Duration(float64(pos) / 44100.0 * float64(time.Second))`, modelled
over exact integers (the verified properties do not depend on the value). -/
def posToTime (pos : Int) : Int :=
  pos * 1000000000 / 44100

/-- src/player.go:163-185 `getCurrentPlaybackPosition`: `none` models the
`(0, false)` returns (no player, or the streamer is not a seeker). -/
def getCurrentPlaybackPosition (st : playbackState) : Option Int :=
  match st.player with
  | none => none
  | some ctrl =>
    if ctrl.streamer.seekable then some (posToTime ctrl.streamer.pos) else none

/-- The scanning loop of `updateLyrics` (src/main.go:1104-1111): walk the
lines updating `newIdx` while the timestamp is at most `t`, stopping at the
first later line. -/
def lyricScanFrom : List LyricLine → Int → Nat → Int → Int
  | [], _, _, cur => cur
  | l :: ls, t, i, cur =>
    if l.timestamp ≤ t then lyricScanFrom ls t (i + 1) (i : Int) else cur

/-- The lyric lookup: index of the current line at elapsed time `t`, or `-1`
before the first line. -/
def lyricScan (ls : List LyricLine) (t : Int) : Int :=
  lyricScanFrom ls t 0 (-1)

/-- src/main.go:1093-1113 `updateLyrics`: do nothing with no lyric lines or
no playback position, otherwise write only `currentLyricIndex`. -/
def updateLyrics (st : playbackState) : playbackState :=
  if st.lyrics.length = 0 then st
  else
    match getCurrentPlaybackPosition st with
    | none => st
    | some t => { st with currentLyricIndex := lyricScan st.lyrics t }

/-- src/player.go:119-132 `stopPlayback`: kill and drop the transcoder
handle if present, pause and drop the player if present, clear the song
title.  (Lyric state is not touched.) -/
def stopPlayback (st : playbackState) : playbackState :=
  let st1 := match st.cmd with
    | some _ => { st with cmd := none }
    | none => st
  let st2 := match st1.player with
    | some _ => { st1 with player := none }
    | none => st1
  { st2 with playingSong := "" }

/-- src/main.go:822-824, `case lyricsFetchedMsg`: store the fetched lines
unconditionally. -/
def handleLyricsFetched (st : playbackState) (msg : List LyricLine) : playbackState :=
  { st with lyrics := msg }

/-- src/player.go:134-146 `seekForward`, position arithmetic: add the fixed
5-second step (5*44100 samples), capping at `len - 1` when the result would
reach or pass `Len()`. -/
def seekForwardPos (pos len : Int) : Int :=
  let newPos := pos + 5 * 44100
  if len ≤ newPos then len - 1 else newPos

/-- src/player.go:148-160 `seekBackward`, position arithmetic: subtract the
fixed 5-second step, clamping at 0. -/
def seekBackwardPos (pos : Int) : Int :=
  let newPos := pos - 5 * 44100
  if newPos < 0 then 0 else newPos

/-- src/player.go:134-146 `seekForward` on the session state: only an
active seekable stream is moved. -/
def seekForward (st : playbackState) : playbackState :=
  match st.player with
  | none => st
  | some ctrl =>
    if ctrl.streamer.seekable then
      { st with player := some { ctrl with streamer :=
          { ctrl.streamer with pos := seekForwardPos ctrl.streamer.pos ctrl.streamer.len } } }
    else st

/-- src/player.go:148-160 `seekBackward` on the session state. -/
def seekBackward (st : playbackState) : playbackState :=
  match st.player with
  | none => st
  | some ctrl =>
    if ctrl.streamer.seekable then
      { st with player := some { ctrl with streamer :=
          { ctrl.streamer with pos := seekBackwardPos ctrl.streamer.pos } } }
    else st

/-- Outcome of pressing `p` on a selected item (src/main.go:664-684). -/
inductive KeyPOutcome
  | ignored
  | startPlayback
deriving DecidableEq

/-- src/main.go:664-684, `case "p"` in `stateSelecting`: albums and items
with empty or short identifiers are ignored; otherwise playback starts. -/
def playKeyAction (item : songItem) : KeyPOutcome :=
  if item.isAlbum then KeyPOutcome.ignored
  else if item.id == "" || decide (goLen item.id < 10) then KeyPOutcome.ignored
  else KeyPOutcome.startPlayback

/-- Whether `runInternalPlayback` reaches its first network request. -/
inductive StartGate
  | rejectedNoNetwork
  | fetchesMetadata
deriving DecidableEq

/-- src/unnamed/part_002:25-37 `runInternalPlayback` identifier guard: an
empty or short identifier returns with an error before `client.GetVideo`
(the video-metadata fetch) or any stream request is issued. -/
def runInternalPlaybackGate (item : songItem) : StartGate :=
  if item.id == "" || decide (goLen item.id < 10) then StartGate.rejectedNoNetwork
  else StartGate.fetchesMetadata

/-! ### Concrete session states for the scenarios -/

/-- A playback session in flight: a seekable stream, a live transcoder
handle, lyrics not yet fetched. -/
def stalePlaying : playbackState :=
  { playingSong := "Song A", isPaused := false,
    player := some { paused := false, streamer := { seekable := true, pos := 0, len := 441000 } },
    cmd := some (), lyrics := [], currentLyricIndex := -1,
    albumCover := "", coverPath := "", kittyImage := "", resizedCoverPath := "" }

/-- The lyric lines of a fetch that completes after the session stopped. -/
def staleLyrics : List LyricLine :=
  [{ timestamp := 0, text := "stale line" }]

/-- A two-line sorted lyric track. -/
def demoLyrics : List LyricLine :=
  [{ timestamp := 0, text := "first" }, { timestamp := 5000000000, text := "second" }]

/-- A playing session holding `demoLyrics`, cursor at sample 0. -/
def demoState : playbackState :=
  { stalePlaying with lyrics := demoLyrics }

/-- A playing session with no lyric lines. -/
def emptyLyricState : playbackState :=
  { stalePlaying with playingSong := "Song B" }

/-- An item whose identifier is shorter than 10 bytes. -/
def shortIdItem : songItem :=
  { id := "short", title := "T", author := "A", thumb := "",
    isAlbum := false, trackCount := 0 }

/-! ## Theorems -/

theorem acceptStrict_iff (aKey arKey : String) (acc : List songItem) (t : TrackItem) :
    acceptStrict aKey arKey acc t = true ↔
      (albumMatch (trackAlbumKey t) aKey = true ∧
       artistMatch (trackArtistKey t) arKey = true ∧
       containsId acc t.videoID = false ∧ 10 ≤ goLen t.videoID) := by
  simp [acceptStrict, Bool.and_assoc]

theorem append_singleton_ne (acc : List songItem) (x : songItem) :
    acc ≠ acc ++ [x] := by
  intro h
  have := congrArg List.length h
  simp at this

theorem strictStep_append_iff (aKey arKey : String) (acc : List songItem) (t : TrackItem) :
    strictStep aKey arKey acc t = acc ++ [convertYTMusicTrack t] ↔
      acceptStrict aKey arKey acc t = true := by
  unfold strictStep
  by_cases h : acceptStrict aKey arKey acc t
  · simp [h]
  · simp only [h, if_false, Bool.false_eq_true, iff_false]
    exact append_singleton_ne acc (convertYTMusicTrack t)

/-- C1: in the strict pass, a candidate is accepted into the accumulated
result exactly when its lower-cased album key and the query's album key
contain one another (or are equal), its artist keys likewise match, its
identifier is at least 10 bytes long, and no accepted track already carries
the same identifier; each step either appends the converted candidate or
leaves the result unchanged.  On the "Greatest Hits" stub, only the
"Greatest Hits (Remastered)" track is accepted. -/
theorem c1_strict_accept :
    (∀ (aKey arKey : String) (acc : List songItem) (t : TrackItem),
      strictStep aKey arKey acc t = acc ++ [convertYTMusicTrack t] ↔
        (albumMatch (trackAlbumKey t) aKey = true ∧
         artistMatch (trackArtistKey t) arKey = true ∧
         containsId acc t.videoID = false ∧ 10 ≤ goLen t.videoID)) ∧
    (∀ (aKey arKey : String) (acc : List songItem) (t : TrackItem),
      strictStep aKey arKey acc t = acc ∨
      strictStep aKey arKey acc t = acc ++ [convertYTMusicTrack t]) ∧
    searchAlbumWithTracks ghCat "Greatest Hits" "Example Band" =
      { result := ResolveResult.found [convertYTMusicTrack ghTrack1],
        searchCalls := ["Greatest Hits Example Band"], watchCalls := [] } := by
  refine ⟨?_, ?_, ?_⟩
  · intro aKey arKey acc t
    exact (strictStep_append_iff aKey arKey acc t).trans (acceptStrict_iff aKey arKey acc t)
  · intro aKey arKey acc t
    unfold strictStep
    by_cases h : acceptStrict aKey arKey acc t <;> simp [h]
  · decide

/-- C6 counterexample: `cleanString` is not idempotent — deleting the first
occurrence of the noise word `hd` from `"hhdd"` splices the surrounding
characters into a fresh occurrence. -/
theorem c6_counterexample :
    cleanString "hhdd" = "hd" ∧ cleanString "hd" = "" ∧
    cleanString (cleanString "hhdd") ≠ cleanString "hhdd" := by
  decide

/-- C7 counterexample: stopping the session and then delivering the late
lyric result leaves the stopped state repopulated with the stale lines. -/
theorem c7_counterexample :
    (stopPlayback stalePlaying).playingSong = "" ∧
    (stopPlayback stalePlaying).player = none ∧
    (stopPlayback stalePlaying).cmd = none ∧
    (handleLyricsFetched (stopPlayback stalePlaying) staleLyrics).lyrics = staleLyrics ∧
    staleLyrics ≠ [] := by
  decide

/-- C7 (amended): a `lyricsFetchedMsg` delivered after `stopPlayback` is
not discarded — the handler stores the stale lines into the playback state
unconditionally; `stopPlayback` clears the transcoder handle, the player
and the song title but leaves the lyric fields untouched, so no
stale-result guard intervenes. -/
theorem c7_late_lyrics_applied :
    ∀ (st : playbackState) (msg : List LyricLine),
      handleLyricsFetched (stopPlayback st) msg = { stopPlayback st with lyrics := msg } ∧
      (handleLyricsFetched (stopPlayback st) msg).lyrics = msg ∧
      (stopPlayback st).player = none ∧
      (stopPlayback st).cmd = none ∧
      (stopPlayback st).playingSong = "" ∧
      (stopPlayback st).lyrics = st.lyrics ∧
      (stopPlayback st).currentLyricIndex = st.currentLyricIndex := by
  intro st msg
  cases hc : st.cmd <;> cases hp : st.player <;>
    simp [stopPlayback, handleLyricsFetched, hc, hp]

/-- C8: seeking moves the decode cursor by the fixed 5-second step
(5*44100 samples); forward seeks are capped strictly below the track
length, backward seeks are clamped at 0 and never negative, and past-bound
seeks clamp instead of wrapping; on the session state only an active
seekable stream is moved. -/
theorem c8_seek_clamped :
    ∀ pos len : Int, 0 ≤ pos → pos < len →
      (seekForwardPos pos len < len ∧ 0 ≤ seekForwardPos pos len ∧
       seekForwardPos pos len = min (pos + 5 * 44100) (len - 1) ∧
       seekBackwardPos pos = max (pos - 5 * 44100) 0 ∧
       0 ≤ seekBackwardPos pos ∧ seekBackwardPos pos ≤ pos) ∧
      (∀ (st : playbackState) (c : Ctrl), st.player = some c →
        c.streamer.seekable = true →
        (seekForward st).player = some { c with streamer :=
          { c.streamer with pos := seekForwardPos c.streamer.pos c.streamer.len } } ∧
        (seekBackward st).player = some { c with streamer :=
          { c.streamer with pos := seekBackwardPos c.streamer.pos } }) := by
  intro pos len h0 hlt
  constructor
  · simp only [seekForwardPos, seekBackwardPos, min_def, max_def]
    split_ifs <;> omega
  · intro st c hp hs
    constructor <;> simp [seekForward, seekBackward, hp, hs]

/-- C8 witness: the clamping facts at cursor 0 of a 441000-sample track. -/
theorem c8_witness :
    seekForwardPos 0 441000 < 441000 ∧ 0 ≤ seekForwardPos 0 441000 ∧
    seekForwardPos 0 441000 = min (0 + 5 * 44100) (441000 - 1) ∧
    seekBackwardPos 0 = max (0 - 5 * 44100) 0 ∧
    0 ≤ seekBackwardPos 0 ∧ seekBackwardPos 0 ≤ 0 :=
  (c8_seek_clamped 0 441000 (by decide) (by decide)).1

/-- C10: `updateLyrics` touches only the current lyric index — with no
lyric lines or no available playback position it leaves the state
untouched, and in every case every field other than `currentLyricIndex` is
unchanged. -/
theorem c10_updateLyrics_frame :
    ∀ st : playbackState,
      (st.lyrics = [] → updateLyrics st = st) ∧
      (getCurrentPlaybackPosition st = none → updateLyrics st = st) ∧
      ((updateLyrics st).playingSong = st.playingSong ∧
       (updateLyrics st).isPaused = st.isPaused ∧
       (updateLyrics st).player = st.player ∧
       (updateLyrics st).cmd = st.cmd ∧
       (updateLyrics st).lyrics = st.lyrics ∧
       (updateLyrics st).albumCover = st.albumCover ∧
       (updateLyrics st).coverPath = st.coverPath ∧
       (updateLyrics st).kittyImage = st.kittyImage ∧
       (updateLyrics st).resizedCoverPath = st.resizedCoverPath) := by
  intro st
  refine ⟨fun h => by simp [updateLyrics, h], fun h => ?_, ?_⟩
  · by_cases hl : st.lyrics.length = 0
    · simp [updateLyrics, hl]
    · simp [updateLyrics, hl, h]
  · by_cases hl : st.lyrics.length = 0
    · simp [updateLyrics, hl]
    · cases hp : getCurrentPlaybackPosition st <;> simp [updateLyrics, hl, hp]

/-- C10 witness: with no lyric lines, the state is untouched. -/
theorem c10_witness : updateLyrics emptyLyricState = emptyLyricState :=
  (c10_updateLyrics_frame emptyLyricState).1 rfl

/-- C2 counterexample: with a stub returning zero candidates for every
query, the resolution returns the not-found outcome but issues eight
catalog search calls — two per variant, not the four the claim states. -/
theorem c2_counterexample :
    (searchAlbumWithTracks emptyCat "Greatest Hits" "Example Band").result =
      ResolveResult.notFound "Greatest Hits" "Example Band" ∧
    (searchAlbumWithTracks emptyCat "Greatest Hits" "Example Band").searchCalls.length = 8 ∧
    ¬ (searchAlbumWithTracks emptyCat "Greatest Hits" "Example Band").searchCalls.length = 4 := by
  decide

/-- C2 (amended): if every catalog search call returns zero candidates, the
resolution returns the not-found outcome naming the attempted album and
artist, and it searches each of the four defined query variants exactly
twice — once in the strict pass and once again in the fallback pass, eight
calls in total — while issuing no related-tracks (watch playlist) call. -/
theorem c2_two_calls_per_variant :
    ∀ (cat : Catalog) (albumTitle artistName : String),
      (∀ q, cat.trackSearch q = Except.ok []) →
      searchAlbumWithTracks cat albumTitle artistName =
        { result := ResolveResult.notFound (cleanAlbumTitle albumTitle) artistName,
          searchCalls :=
            searchQueries (cleanAlbumTitle albumTitle) artistName ++
            searchQueries (cleanAlbumTitle albumTitle) artistName,
          watchCalls := [] } := by
  intro cat albumTitle artistName h
  simp [searchAlbumWithTracks, fallbackPhase, strictPhase, searchQueries, runStrict,
    runFallback, strictPass, h]

/-- C2 witness: the amended statement at the all-empty stub. -/
theorem c2_witness :
    searchAlbumWithTracks emptyCat "Album X" "Artist Y" =
      { result := ResolveResult.notFound (cleanAlbumTitle "Album X") "Artist Y",
        searchCalls :=
          searchQueries (cleanAlbumTitle "Album X") "Artist Y" ++
          searchQueries (cleanAlbumTitle "Album X") "Artist Y",
        watchCalls := [] } :=
  c2_two_calls_per_variant emptyCat "Album X" "Artist Y" (fun _ => rfl)

theorem acceptLoose_iff (aKey arKey : String) (acc : List songItem) (t : TrackItem) :
    acceptLoose aKey arKey acc t = true ↔
      ((albumMatchLoose (trackAlbumKey t) aKey = true ∨
        (artistMatch (trackArtistKey t) arKey = true ∧ acc.length < 10)) ∧
       containsId acc t.videoID = false ∧ 10 ≤ goLen t.videoID) := by
  simp [acceptLoose, Bool.and_assoc]

theorem looseStep_append_iff (aKey arKey : String) (acc : List songItem) (t : TrackItem) :
    looseStep aKey arKey acc t = acc ++ [convertYTMusicTrack t] ↔
      acceptLoose aKey arKey acc t = true := by
  unfold looseStep
  by_cases h : acceptLoose aKey arKey acc t
  · simp [h]
  · simp only [h, if_false, Bool.false_eq_true, iff_false]
    exact append_singleton_ne acc (convertYTMusicTrack t)

/-- C3: the loose fallback accepts a related track exactly when the album
match holds, or the artist match holds while fewer than 10 tracks are
accumulated — still requiring a 10-byte identifier and no duplicate
identifier; each step appends the converted track or changes nothing; and
the fallback runs only when the strict pass accepted no track: a non-empty
strict phase is returned as-is, with no watch-playlist call and no further
search. -/
theorem c3_loose_accept :
    (∀ (aKey arKey : String) (acc : List songItem) (t : TrackItem),
      looseStep aKey arKey acc t = acc ++ [convertYTMusicTrack t] ↔
        ((albumMatchLoose (trackAlbumKey t) aKey = true ∨
          (artistMatch (trackArtistKey t) arKey = true ∧ acc.length < 10)) ∧
         containsId acc t.videoID = false ∧ 10 ≤ goLen t.videoID)) ∧
    (∀ (aKey arKey : String) (acc : List songItem) (t : TrackItem),
      looseStep aKey arKey acc t = acc ∨
      looseStep aKey arKey acc t = acc ++ [convertYTMusicTrack t]) ∧
    (∀ (cat : Catalog) (albumTitle artistName : String),
      (strictPhase cat albumTitle artistName).1 ≠ [] →
      searchAlbumWithTracks cat albumTitle artistName =
        { result := ResolveResult.found (strictPhase cat albumTitle artistName).1,
          searchCalls := (strictPhase cat albumTitle artistName).2,
          watchCalls := [] }) := by
  refine ⟨?_, ?_, ?_⟩
  · intro aKey arKey acc t
    exact (looseStep_append_iff aKey arKey acc t).trans (acceptLoose_iff aKey arKey acc t)
  · intro aKey arKey acc t
    unfold looseStep
    by_cases h : acceptLoose aKey arKey acc t <;> simp [h]
  · intro cat albumTitle artistName h
    have hlen : ¬ (strictPhase cat albumTitle artistName).1.length = 0 := by
      simpa [List.length_eq_zero] using h
    simp [searchAlbumWithTracks, fallbackPhase, hlen]

/-- C3 witness: on the "Greatest Hits" stub the strict phase is non-empty
and is returned untouched by the fallback. -/
theorem c3_witness :
    searchAlbumWithTracks ghCat "Greatest Hits" "Example Band" =
      { result := ResolveResult.found (strictPhase ghCat "Greatest Hits" "Example Band").1,
        searchCalls := (strictPhase ghCat "Greatest Hits" "Example Band").2,
        watchCalls := [] } :=
  c3_loose_accept.2.2 ghCat "Greatest Hits" "Example Band" (by decide)

theorem lyricScanFrom_nil (t : Int) (i : Nat) (cur : Int) :
    lyricScanFrom [] t i cur = cur := rfl

theorem lyricScanFrom_cons (l : LyricLine) (ls : List LyricLine) (t : Int)
    (i : Nat) (cur : Int) :
    lyricScanFrom (l :: ls) t i cur =
      if l.timestamp ≤ t then lyricScanFrom ls t (i + 1) (i : Int) else cur := rfl

theorem lyricScanFrom_takeWhile (t : Int) :
    ∀ (ls : List LyricLine) (i : Nat) (cur : Int),
      lyricScanFrom ls t i cur =
        if (ls.takeWhile fun l => decide (l.timestamp ≤ t)).length = 0 then cur
        else ((i + (ls.takeWhile fun l => decide (l.timestamp ≤ t)).length - 1 : Nat) : Int) := by
  intro ls
  induction ls with
  | nil => intro i cur; simp [lyricScanFrom_nil]
  | cons l ls ih =>
    intro i cur
    by_cases h : l.timestamp ≤ t
    · have htw : (l :: ls).takeWhile (fun l => decide (l.timestamp ≤ t)) =
          l :: ls.takeWhile (fun l => decide (l.timestamp ≤ t)) := by
        simp [List.takeWhile_cons, h]
      rw [lyricScanFrom_cons, if_pos h, ih (i + 1) (i : Int), htw]
      rcases Nat.eq_zero_or_pos (ls.takeWhile fun l => decide (l.timestamp ≤ t)).length
        with h0 | h0
      · rw [if_pos h0]
        simp [h0]
      · rw [if_neg (by omega)]
        simp only [List.length_cons]
        rw [if_neg (by omega)]
        norm_cast
        omega
    · have htw : (l :: ls).takeWhile (fun l => decide (l.timestamp ≤ t)) = [] := by
        simp [List.takeWhile_cons, h]
      rw [lyricScanFrom_cons, if_neg h, htw]
      simp

theorem lyricScan_takeWhile (ls : List LyricLine) (t : Int) :
    lyricScan ls t =
      if (ls.takeWhile fun l => decide (l.timestamp ≤ t)).length = 0 then -1
      else (((ls.takeWhile fun l => decide (l.timestamp ≤ t)).length - 1 : Nat) : Int) := by
  rw [lyricScan, lyricScanFrom_takeWhile t ls 0 (-1)]
  simp

theorem takeWhile_len_le {α : Type} (p : α → Bool) :
    ∀ l : List α, (l.takeWhile p).length ≤ l.length := by
  intro l
  induction l with
  | nil => simp
  | cons a l ih =>
    rw [List.takeWhile_cons]
    by_cases h : p a = true
    · rw [if_pos h]
      simp only [List.length_cons]
      omega
    · rw [if_neg h]
      simp

theorem sorted_le_iff (t : Int) :
    ∀ (ls : List LyricLine), ls.Pairwise (fun a b => a.timestamp ≤ b.timestamp) →
      ∀ (j : Nat) (hj : j < ls.length),
        ((ls.get ⟨j, hj⟩).timestamp ≤ t ↔
          j < (ls.takeWhile fun l => decide (l.timestamp ≤ t)).length) := by
  intro ls
  induction ls with
  | nil => intro _ j hj; exact absurd hj (Nat.not_lt_zero j)
  | cons l ls ih =>
    intro hp j hj
    have h1 := (List.pairwise_cons.mp hp).1
    have h2 := (List.pairwise_cons.mp hp).2
    by_cases hl : l.timestamp ≤ t
    · rw [List.takeWhile_cons, if_pos (by simpa using hl)]
      cases j with
      | zero => simpa using hl
      | succ j =>
        have hj' : j < ls.length := by simpa using hj
        rw [List.get_cons_succ]
        rw [ih h2 j hj']
        simp only [List.length_cons]
        omega
    · rw [List.takeWhile_cons, if_neg (by simpa using hl)]
      simp only [List.length_nil, Nat.not_lt_zero, iff_false]
      cases j with
      | zero => simpa using hl
      | succ j =>
        have hj' : j < ls.length := by simpa using hj
        rw [List.get_cons_succ]
        intro hle
        exact hl (le_trans (h1 _ (List.get_mem ls j hj')) hle)

theorem takeWhile_len_mono (t t' : Int) (h : t ≤ t') :
    ∀ ls : List LyricLine,
      (ls.takeWhile fun l => decide (l.timestamp ≤ t)).length ≤
      (ls.takeWhile fun l => decide (l.timestamp ≤ t')).length := by
  intro ls
  induction ls with
  | nil => simp
  | cons l ls ih =>
    by_cases hl : l.timestamp ≤ t
    · rw [List.takeWhile_cons, if_pos (by simpa using hl),
        List.takeWhile_cons, if_pos (by simp [le_trans hl h])]
      simpa using ih
    · rw [List.takeWhile_cons, if_neg (by simpa using hl)]
      simp

/-- C4: on a non-empty lyric list sorted ascending by timestamp, the lookup
yields the greatest index whose timestamp is at most `t`, `-1` when no line
qualifies; the index is non-decreasing in `t`; and `updateLyrics` writes
exactly this value into `currentLyricIndex` whenever a playback position is
available. -/
theorem c4_lyric_lookup :
    ∀ (ls : List LyricLine) (t : Int), ls ≠ [] →
      ls.Pairwise (fun a b => a.timestamp ≤ b.timestamp) →
      ((lyricScan ls t = -1 ↔
          ∀ (j : Nat) (hj : j < ls.length), ¬ (ls.get ⟨j, hj⟩).timestamp ≤ t) ∧
       (∀ (i : Nat) (hi : i < ls.length),
          lyricScan ls t = (i : Int) ↔
            ((ls.get ⟨i, hi⟩).timestamp ≤ t ∧
             ∀ (j : Nat) (hj : j < ls.length),
               (ls.get ⟨j, hj⟩).timestamp ≤ t → j ≤ i)) ∧
       (∀ t' : Int, t ≤ t' → lyricScan ls t ≤ lyricScan ls t') ∧
       (∀ st : playbackState, st.lyrics = ls →
          getCurrentPlaybackPosition st = some t →
          (updateLyrics st).currentLyricIndex = lyricScan ls t)) := by
  intro ls t hne hp
  have hlen : 0 < ls.length := List.length_pos.mpr hne
  have hchar := sorted_le_iff t ls hp
  have hn_le := takeWhile_len_le (fun l => decide (l.timestamp ≤ t)) ls
  refine ⟨?_, ?_, ?_, ?_⟩
  · rw [lyricScan_takeWhile]
    rcases Nat.eq_zero_or_pos (ls.takeWhile fun l => decide (l.timestamp ≤ t)).length
      with h0 | h0
    · rw [if_pos h0]
      refine iff_of_true rfl ?_
      intro j hj hle
      have := (hchar j hj).mp hle
      omega
    · rw [if_neg (by omega)]
      refine iff_of_false (by omega) ?_
      intro hall
      exact hall 0 hlen ((hchar 0 hlen).mpr (by omega))
  · intro i hi
    rw [lyricScan_takeWhile]
    rcases Nat.eq_zero_or_pos (ls.takeWhile fun l => decide (l.timestamp ≤ t)).length
      with h0 | h0
    · rw [if_pos h0]
      refine iff_of_false (by omega) ?_
      rintro ⟨hle, -⟩
      have := (hchar i hi).mp hle
      omega
    · rw [if_neg (by omega)]
      constructor
      · intro heq
        have hieq : i = (ls.takeWhile fun l => decide (l.timestamp ≤ t)).length - 1 := by
          omega
        refine ⟨(hchar i hi).mpr (by omega), ?_⟩
        intro j hj hle
        have := (hchar j hj).mp hle
        omega
      · rintro ⟨hle, hmax⟩
        have hi_lt := (hchar i hi).mp hle
        have hlast : (ls.takeWhile fun l => decide (l.timestamp ≤ t)).length - 1 < ls.length := by
          omega
        have := hmax _ hlast ((hchar _ hlast).mpr (by omega))
        omega
  · intro t' ht
    have hmono := takeWhile_len_mono t t' ht ls
    rw [lyricScan_takeWhile, lyricScan_takeWhile]
    rcases Nat.eq_zero_or_pos (ls.takeWhile fun l => decide (l.timestamp ≤ t)).length
      with h0 | h0
    · rcases Nat.eq_zero_or_pos (ls.takeWhile fun l => decide (l.timestamp ≤ t')).length
        with h0' | h0'
      · rw [if_pos h0, if_pos h0']
      · rw [if_pos h0, if_neg (by omega)]
        omega
    · rw [if_neg (by omega), if_neg (by omega)]
      omega
  · intro st h1 h2
    have hzero : ¬ st.lyrics.length = 0 := by
      rw [h1]
      omega
    simp [updateLyrics, hzero, h2, h1, hne]

/-- C4 witness: the lookup value is written into the session at elapsed
time 0 of the demo state. -/
theorem c4_witness :
    (updateLyrics demoState).currentLyricIndex = lyricScan demoLyrics 0 :=
  (c4_lyric_lookup demoLyrics 0 (by decide) (by decide)).2.2.2 demoState rfl rfl

theorem insertLine_nil (x : LyricLine) : insertLine x [] = [x] := rfl

theorem insertLine_cons (x y : LyricLine) (ys : List LyricLine) :
    insertLine x (y :: ys) =
      if x.timestamp < y.timestamp then x :: y :: ys else y :: insertLine x ys := rfl

theorem mem_insertLine (x a : LyricLine) :
    ∀ ls : List LyricLine, a ∈ insertLine x ls ↔ a = x ∨ a ∈ ls := by
  intro ls
  induction ls with
  | nil => simp [insertLine_nil]
  | cons y ys ih =>
    rw [insertLine_cons]
    by_cases h : x.timestamp < y.timestamp
    · rw [if_pos h]
      simp
    · rw [if_neg h]
      simp [ih]
      tauto

theorem insertLine_sorted (x : LyricLine) :
    ∀ ls : List LyricLine,
      ls.Pairwise (fun a b => a.timestamp ≤ b.timestamp) →
      (insertLine x ls).Pairwise (fun a b => a.timestamp ≤ b.timestamp) := by
  intro ls
  induction ls with
  | nil => intro _; simp [insertLine_nil]
  | cons y ys ih =>
    intro hp
    have h1 := (List.pairwise_cons.mp hp).1
    have h2 := (List.pairwise_cons.mp hp).2
    rw [insertLine_cons]
    by_cases h : x.timestamp < y.timestamp
    · rw [if_pos h]
      refine List.pairwise_cons.mpr ⟨?_, hp⟩
      intro b hb
      rcases List.mem_cons.mp hb with rfl | hb'
      · exact le_of_lt h
      · exact le_trans (le_of_lt h) (h1 b hb')
    · rw [if_neg h]
      refine List.pairwise_cons.mpr ⟨?_, ih h2⟩
      intro b hb
      rcases (mem_insertLine x b ys).mp hb with rfl | hb'
      · exact not_lt.mp h
      · exact h1 b hb'

theorem sortLines_sorted :
    ∀ ls : List LyricLine,
      (sortLines ls).Pairwise (fun a b => a.timestamp ≤ b.timestamp) := by
  intro ls
  induction ls with
  | nil => simp [sortLines]
  | cons l ls ih =>
    have : sortLines (l :: ls) = insertLine l (sortLines ls) := rfl
    rw [this]
    exact insertLine_sorted l (sortLines ls) ih

/-- C5: for every input string, the parsed lyric list is sorted ascending
by timestamp, and any line on which the `[minutes:seconds.fraction]text`
pattern does not match contributes nothing to the output (and raises no
error: parsing is total). -/
theorem c5_parse_sorted :
    (∀ s : String,
      (parseLRC s).Pairwise (fun a b => a.timestamp ≤ b.timestamp)) ∧
    (∀ (pre post : List String) (x : String), parseLRCLine x = none →
      parseLRCLines (pre ++ x :: post) = parseLRCLines (pre ++ post)) := by
  constructor
  · intro s
    exact sortLines_sorted _
  · intro pre post x hx
    unfold parseLRCLines
    simp [List.filterMap_append, List.filterMap_cons, hx]

/-- C5 witness: a sorted parse of a concrete text, and a concrete
non-matching line that is dropped. -/
theorem c5_witness :
    parseLRCLines (["[0:01.0]hey"] ++ "garbage line" :: ["[0:02.0]yo"]) =
      parseLRCLines (["[0:01.0]hey"] ++ ["[0:02.0]yo"]) :=
  c5_parse_sorted.2 ["[0:01.0]hey"] ["[0:02.0]yo"] "garbage line" (by decide)

theorem dropWhile_self (q : Char → Bool) :
    ∀ l : List Char, (l.dropWhile q).dropWhile q = l.dropWhile q := by
  intro l
  induction l with
  | nil => simp
  | cons a l ih =>
    by_cases h : q a = true
    · rw [List.dropWhile_cons, if_pos h, ih]
    · rw [List.dropWhile_cons, if_neg h, List.dropWhile_cons, if_neg h]

theorem dropWhile_head_false (q : Char → Bool) :
    ∀ (l : List Char) (c : Char) (cs : List Char),
      l.dropWhile q = c :: cs → q c = false := by
  intro l
  induction l with
  | nil => intro c cs h; simp at h
  | cons a l ih =>
    intro c cs h
    by_cases ha : q a = true
    · rw [List.dropWhile_cons, if_pos ha] at h
      exact ih c cs h
    · rw [List.dropWhile_cons, if_neg ha] at h
      cases h
      simpa using ha

theorem dropWhile_ends_with (q : Char → Bool) (c : Char) (hc : q c = false) :
    ∀ m : List Char, ∃ m', (m ++ [c]).dropWhile q = m' ++ [c] := by
  intro m
  induction m with
  | nil =>
    refine ⟨[], ?_⟩
    rw [List.nil_append, List.dropWhile_cons, if_neg (by simp [hc])]
  | cons a m ih =>
    by_cases ha : q a = true
    · obtain ⟨m', hm'⟩ := ih
      exact ⟨m', by rw [List.cons_append, List.dropWhile_cons, if_pos ha, hm']⟩
    · exact ⟨a :: m, by rw [List.cons_append, List.dropWhile_cons, if_neg ha]⟩

theorem trimChars_idem : ∀ l : List Char, trimChars (trimChars l) = trimChars l := by
  intro l
  cases haq : l.dropWhile goSpace with
  | nil => simp [trimChars, haq]
  | cons c cs =>
    have hc : goSpace c = false := dropWhile_head_false goSpace l c cs haq
    obtain ⟨m', hm'⟩ := dropWhile_ends_with goSpace c hc cs.reverse
    have h1 : trimChars l = c :: m'.reverse := by
      rw [trimChars, haq, List.reverse_cons, hm', List.reverse_append]
      simp
    rw [h1, trimChars, List.dropWhile_cons, if_neg (by simp [hc]), List.reverse_cons,
      List.reverse_reverse]
    have h2 : (m' ++ [c]).dropWhile goSpace = m' ++ [c] := by
      rw [← hm']
      exact dropWhile_self goSpace _
    rw [h2, List.reverse_append]
    simp

theorem cleanChars_fixed (l : List Char) :
    removeBrackets l = l → removeSuffixes l = l → removeBy l = l →
    replaceAllEx 'f' ['t', '.'] l = l →
    replaceAllEx 'f' ['e', 'a', 't', '.'] l = l →
    trimChars l = l →
    cleanChars l = l := by
  intro h1 h2 h3 h4 h5 h6
  unfold cleanChars
  rw [h1, h2, h3, h4, h5, h6]

theorem trim_cleanChars (m : List Char) : trimChars (cleanChars m) = cleanChars m := by
  show trimChars (trimChars (replaceAllEx 'f' ['e', 'a', 't', '.']
    (replaceAllEx 'f' ['t', '.'] (removeBy (removeSuffixes (removeBrackets m)))))) = _
  exact trimChars_idem _

theorem cleanString_mk (L : List Char) : cleanString ⟨L⟩ = ⟨cleanChars L⟩ := rfl

/-- C6 counterexample forces the amendment; this is the nearby statement
that holds.  C6 (amended): `cleanString` is not idempotent in general —
removing one occurrence of a noise token can splice the surrounding
characters into a new occurrence (see the counterexample) — but it is
idempotent on every input whose cleaned form is a fixed point of each
removal pass: when `cleanString x` contains no bracketed segment, no
case-insensitive occurrence of the suffix vocabulary, no
whitespace-"by"-whitespace tail pattern and no `ft.`/`feat.` substring,
then `cleanString (cleanString x) = cleanString x`. -/
theorem c6_clean_idem_on_fixed :
    ∀ x : String,
      removeBrackets (cleanString x).data = (cleanString x).data →
      removeSuffixes (cleanString x).data = (cleanString x).data →
      removeBy (cleanString x).data = (cleanString x).data →
      replaceAllEx 'f' ['t', '.'] (cleanString x).data = (cleanString x).data →
      replaceAllEx 'f' ['e', 'a', 't', '.'] (cleanString x).data = (cleanString x).data →
      cleanString (cleanString x) = cleanString x := by
  intro x h1 h2 h3 h4 h5
  have hstr : cleanString x = ⟨cleanChars x.data⟩ := rfl
  have hd : (cleanString x).data = cleanChars x.data := by rw [hstr]
  rw [hd] at h1 h2 h3 h4 h5
  have hfix : cleanChars (cleanChars x.data) = cleanChars x.data :=
    cleanChars_fixed (cleanChars x.data) h1 h2 h3 h4 h5 (trim_cleanChars x.data)
  calc cleanString (cleanString x)
      = cleanString ⟨cleanChars x.data⟩ := by rw [hstr]
    _ = ⟨cleanChars (cleanChars x.data)⟩ := cleanString_mk (cleanChars x.data)
    _ = ⟨cleanChars x.data⟩ := by rw [hfix]
    _ = cleanString x := hstr.symm

set_option maxHeartbeats 2000000 in
/-- C6 witness: the amended statement at a title whose cleaned form
contains no removable pattern. -/
theorem c6_witness :
    cleanString (cleanString "Song Name (Live)") = cleanString "Song Name (Live)" :=
  c6_clean_idem_on_fixed "Song Name (Live)"
    (by decide) (by decide) (by decide) (by decide) (by decide)

theorem convert_id_len (t : TrackItem) (h : 10 ≤ goLen t.videoID) :
    (convertYTMusicTrack t).id = t.videoID := by
  simp [convertYTMusicTrack, Nat.not_lt.mpr h]

theorem strictPass_ids (aKey arKey : String) :
    ∀ (res : List TrackItem) (acc : List songItem),
      (∀ y ∈ acc, 10 ≤ goLen y.id) →
      ∀ y ∈ strictPass aKey arKey res acc, 10 ≤ goLen y.id := by
  intro res
  induction res with
  | nil => intro acc h y hy; exact h y hy
  | cons t res ih =>
    intro acc h y hy
    have hstep : ∀ z ∈ strictStep aKey arKey acc t, 10 ≤ goLen z.id := by
      intro z hz
      unfold strictStep at hz
      by_cases hb : acceptStrict aKey arKey acc t = true
      · rw [if_pos hb] at hz
        rcases List.mem_append.mp hz with h1 | h1
        · exact h z h1
        · have hlen : 10 ≤ goLen t.videoID :=
            ((acceptStrict_iff aKey arKey acc t).mp hb).2.2.2
          have hzc : z = convertYTMusicTrack t := by simpa using h1
          rw [hzc, convert_id_len t hlen]
          exact hlen
      · rw [if_neg hb] at hz
        exact h z hz
    have hcons : strictPass aKey arKey (t :: res) acc =
        strictPass aKey arKey res (strictStep aKey arKey acc t) := rfl
    rw [hcons] at hy
    exact ih (strictStep aKey arKey acc t) hstep y hy

theorem loosePass_ids (aKey arKey : String) :
    ∀ (watch : List TrackItem) (acc : List songItem),
      (∀ y ∈ acc, 10 ≤ goLen y.id) →
      ∀ y ∈ loosePass aKey arKey watch acc, 10 ≤ goLen y.id := by
  intro watch
  induction watch with
  | nil => intro acc h y hy; exact h y hy
  | cons t watch ih =>
    intro acc h y hy
    have hstep : ∀ z ∈ looseStep aKey arKey acc t, 10 ≤ goLen z.id := by
      intro z hz
      unfold looseStep at hz
      by_cases hb : acceptLoose aKey arKey acc t = true
      · rw [if_pos hb] at hz
        rcases List.mem_append.mp hz with h1 | h1
        · exact h z h1
        · have hlen : 10 ≤ goLen t.videoID :=
            ((acceptLoose_iff aKey arKey acc t).mp hb).2.2
          have hzc : z = convertYTMusicTrack t := by simpa using h1
          rw [hzc, convert_id_len t hlen]
          exact hlen
      · rw [if_neg hb] at hz
        exact h z hz
    have hcons : loosePass aKey arKey (t :: watch) acc =
        loosePass aKey arKey watch (looseStep aKey arKey acc t) := rfl
    rw [hcons] at hy
    exact ih (looseStep aKey arKey acc t) hstep y hy

theorem runStrict_ids (cat : Catalog) (aKey arKey : String) :
    ∀ (qs : List String) (tracks : List songItem) (slog : List String),
      (∀ y ∈ tracks, 10 ≤ goLen y.id) →
      ∀ y ∈ (runStrict cat aKey arKey qs tracks slog).1, 10 ≤ goLen y.id := by
  intro qs
  induction qs with
  | nil => intro tracks slog h y hy; exact h y hy
  | cons q qs ih =>
    intro tracks slog h y hy
    rcases hcs : cat.trackSearch q with e | res
    · rw [show runStrict cat aKey arKey (q :: qs) tracks slog =
          runStrict cat aKey arKey qs tracks (slog ++ [q]) from by
        simp [runStrict, hcs]] at hy
      exact ih tracks (slog ++ [q]) h y hy
    · by_cases hlen : 0 < (strictPass aKey arKey res tracks).length
      · rw [show runStrict cat aKey arKey (q :: qs) tracks slog =
            (strictPass aKey arKey res tracks, slog ++ [q]) from by
          simp [runStrict, hcs, hlen]] at hy
        exact strictPass_ids aKey arKey res tracks h y hy
      · rw [show runStrict cat aKey arKey (q :: qs) tracks slog =
            runStrict cat aKey arKey qs (strictPass aKey arKey res tracks)
              (slog ++ [q]) from by
          simp [runStrict, hcs, hlen]] at hy
        exact ih (strictPass aKey arKey res tracks) (slog ++ [q])
          (strictPass_ids aKey arKey res tracks h) y hy

theorem runFallback_ids (cat : Catalog) (aKey arKey : String) :
    ∀ (qs : List String) (tracks : List songItem) (slog wlog : List String),
      (∀ y ∈ tracks, 10 ≤ goLen y.id) →
      ∀ y ∈ (runFallback cat aKey arKey qs tracks slog wlog).1, 10 ≤ goLen y.id := by
  intro qs
  induction qs with
  | nil => intro tracks slog wlog h y hy; exact h y hy
  | cons q qs ih =>
    intro tracks slog wlog h y hy
    rcases hcs : cat.trackSearch q with e | res
    · rw [show runFallback cat aKey arKey (q :: qs) tracks slog wlog =
          runFallback cat aKey arKey qs tracks (slog ++ [q]) wlog from by
        simp [runFallback, hcs]] at hy
      exact ih tracks (slog ++ [q]) wlog h y hy
    · cases res with
      | nil =>
        rw [show runFallback cat aKey arKey (q :: qs) tracks slog wlog =
            runFallback cat aKey arKey qs tracks (slog ++ [q]) wlog from by
          simp [runFallback, hcs]] at hy
        exact ih tracks (slog ++ [q]) wlog h y hy
      | cons t0 rest =>
        rcases hw : cat.getWatchPlaylist t0.videoID with e2 | watch
        · rw [show runFallback cat aKey arKey (q :: qs) tracks slog wlog =
              runFallback cat aKey arKey qs tracks (slog ++ [q])
                (wlog ++ [t0.videoID]) from by
            simp [runFallback, hcs, hw]] at hy
          exact ih tracks (slog ++ [q]) (wlog ++ [t0.videoID]) h y hy
        · by_cases hwl : 0 < watch.length
          · by_cases htl : 0 < (loosePass aKey arKey watch tracks).length
            · rw [show runFallback cat aKey arKey (q :: qs) tracks slog wlog =
                  (loosePass aKey arKey watch tracks, slog ++ [q],
                    wlog ++ [t0.videoID]) from by
                simp [runFallback, hcs, hw, hwl, htl]] at hy
              exact loosePass_ids aKey arKey watch tracks h y hy
            · rw [show runFallback cat aKey arKey (q :: qs) tracks slog wlog =
                  runFallback cat aKey arKey qs (loosePass aKey arKey watch tracks)
                    (slog ++ [q]) (wlog ++ [t0.videoID]) from by
                simp [runFallback, hcs, hw, hwl, htl]] at hy
              exact ih (loosePass aKey arKey watch tracks) (slog ++ [q])
                (wlog ++ [t0.videoID]) (loosePass_ids aKey arKey watch tracks h) y hy
          · rw [show runFallback cat aKey arKey (q :: qs) tracks slog wlog =
                runFallback cat aKey arKey qs tracks (slog ++ [q])
                  (wlog ++ [t0.videoID]) from by
              simp [runFallback, hcs, hw, hwl]] at hy
            exact ih tracks (slog ++ [q]) (wlog ++ [t0.videoID]) h y hy

theorem filterSongs_fold_ids :
    ∀ (res : List TrackItem) (acc : List songItem),
      (∀ y ∈ acc, 10 ≤ goLen y.id) →
      ∀ y ∈ res.foldl
        (fun acc t =>
          if decide (10 ≤ goLen t.videoID) then acc ++ [convertYTMusicTrack t]
          else acc) acc,
        10 ≤ goLen y.id := by
  intro res
  induction res with
  | nil => intro acc h y hy; exact h y hy
  | cons t res ih =>
    intro acc h y hy
    refine ih _ ?_ y hy
    intro z hz
    simp only at hz
    by_cases hb : 10 ≤ goLen t.videoID
    · rw [if_pos (by simpa using hb)] at hz
      rcases List.mem_append.mp hz with h1 | h1
      · exact h z h1
      · have hzc : z = convertYTMusicTrack t := by simpa using h1
        rw [hzc, convert_id_len t hb]
        exact hb
    · rw [if_neg (by simpa using hb)] at hz
      exact h z hz

/-- C9: a track whose identifier is empty or shorter than 10 bytes is
rejected by the play key and by `runInternalPlayback` before any network
request (no video-metadata fetch, no stream request), and every track in a
successful resolver output — and in the track-search conversion — carries
an identifier of at least 10 bytes. -/
theorem c9_short_ids_rejected :
    ∀ item : songItem, goLen item.id < 10 →
      (playKeyAction item = KeyPOutcome.ignored ∧
       runInternalPlaybackGate item = StartGate.rejectedNoNetwork) ∧
      (∀ (cat : Catalog) (albumTitle artistName : String) (tracks : List songItem),
        (searchAlbumWithTracks cat albumTitle artistName).result =
          ResolveResult.found tracks →
        ∀ y ∈ tracks, 10 ≤ goLen y.id) ∧
      (∀ res : List TrackItem, ∀ y ∈ searchFilterSongs res, 10 ≤ goLen y.id) := by
  intro item hshort
  refine ⟨⟨?_, ?_⟩, ?_, ?_⟩
  · unfold playKeyAction
    by_cases ha : item.isAlbum
    · rw [if_pos ha]
    · rw [if_neg ha, if_pos (by simp [hshort])]
  · unfold runInternalPlaybackGate
    rw [if_pos (by simp [hshort])]
  · intro cat albumTitle artistName tracks hres y hy
    have hsp : ∀ z ∈ (strictPhase cat albumTitle artistName).1, 10 ≤ goLen z.id :=
      runStrict_ids cat (toLowerS (cleanAlbumTitle albumTitle)) (toLowerS artistName)
        (searchQueries (cleanAlbumTitle albumTitle) artistName) [] [] (by simp)
    have hfb : ∀ z ∈ (fallbackPhase cat albumTitle artistName).1, 10 ≤ goLen z.id := by
      unfold fallbackPhase
      split
      · exact runFallback_ids cat (toLowerS (cleanAlbumTitle albumTitle))
          (toLowerS artistName) (searchQueries (cleanAlbumTitle albumTitle) artistName)
          (strictPhase cat albumTitle artistName).1 [] [] hsp
      · exact hsp
    revert hres
    unfold searchAlbumWithTracks
    split
    · intro hres
      exact absurd hres (by simp)
    · intro hres
      simp only [ResolveResult.found.injEq] at hres
      rw [← hres] at hy
      exact hfb y hy
  · intro res y hy
    exact filterSongs_fold_ids res [] (by simp) y hy

/-- C9 witness: the short identifier `"short"` is rejected by both gates,
and the "Greatest Hits" stub's successful output passes the length
check. -/
theorem c9_witness :
    playKeyAction shortIdItem = KeyPOutcome.ignored ∧
    runInternalPlaybackGate shortIdItem = StartGate.rejectedNoNetwork :=
  (c9_short_ids_rejected shortIdItem (by decide)).1

end GoMusic
